import Mathlib

/-!
# Verification of the MIDI data carver (`carver.c`)

A shallow embedding of the carver's core.  The input blob is a `List Nat`
of byte values (each < 256 in any real input); buffer positions are
absolute `Nat` indices.  Pointer arithmetic `&buffer[i]` is modelled by
passing the base offset explicitly.  C reads that would fall outside the
allocation are undefined behaviour; the embedding models such a read as
`List.getD _ 0` (a multi-byte read sees 0) and a `memcmp`/`strncmp`
against a slice that runs off the end as a failed comparison (the slice
is shorter than the pattern).  Where a theorem depends on an
out-of-bounds access, this modelling choice is called out.
-/

namespace MidiCarver

/-- The 4-byte header-chunk tag "MThd" (bytes 0x4D 0x54 0x68 0x64). -/
def mThdTag : List Nat := [77, 84, 104, 100]

/-- The 4-byte track-chunk tag "MTrk" (bytes 0x4D 0x54 0x72 0x6B). -/
def mTrkTag : List Nat := [77, 84, 114, 107]

/-- The canonical end-of-track marker 00 FF 2F 00 (`end_of_track`, carver.c line 159). -/
def eot : List Nat := [0, 255, 47, 0]

/-- `memcmp(&buffer[i], pat, |pat|) == 0` (also `strncmp` on the NUL-free
tag patterns): the `|pat|` bytes of the buffer starting at `i` equal `pat`. -/
def sliceEq (buffer : List Nat) (i : Nat) (pat : List Nat) : Bool :=
  (buffer.drop i).take pat.length == pat

/-- `strncmp((char *)&buffer[i], "MThd", 4) == 0`. -/
def isMThd (buffer : List Nat) (i : Nat) : Bool := sliceEq buffer i mThdTag

/-- `strncmp((char *)&buffer[i], "MTrk", 4) == 0`. -/
def isMTrk (buffer : List Nat) (i : Nat) : Bool := sliceEq buffer i mTrkTag

/-- Big-endian 4-byte read, as in carver.c lines 121-124 and 171-174
(`buffer[i]*16777216 + buffer[i+1]*65536 + buffer[i+2]*256 + buffer[i+3]`). -/
def readU32 (buffer : List Nat) (i : Nat) : Nat :=
  buffer.getD i 0 * 16777216 + buffer.getD (i+1) 0 * 65536 +
    buffer.getD (i+2) 0 * 256 + buffer.getD (i+3) 0

/-- The 4 length bytes produced by `write_mtrk` (carver.c lines 45-48).
The most-significant byte uses the divisor 1677216 that appears verbatim
in the source; each byte is truncated to `unsigned char`. -/
def writeLen32 (n : Nat) : List Nat :=
  [n / 1677216 % 256, n % 1677216 / 65536 % 256, n % 65536 / 256 % 256, n % 256]

/-- Modelled from the spec: the "mathematically correct big-endian 4-byte
encoding (divisor 16,777,216)" that the design calls for.  This definition
follows the spec's words and is the comparison point for the length-field
claims; it does not appear in carver.c. -/
def u32beSpec (n : Nat) : List Nat :=
  [n / 16777216 % 256, n % 16777216 / 65536 % 256, n % 65536 / 256 % 256, n % 256]

/-- `struct mtrk` (carver.c lines 31-36).  The `next` pointer becomes the
position of the track in its header's `tracks` list. -/
structure Mtrk where
  size : Nat
  extratrunc : Bool
  data : List Nat
deriving DecidableEq, Repr

/-- `struct mthd` (carver.c lines 24-29).  `track0` becomes `tracks`. -/
structure Mthd where
  miditype : Nat
  numtracks : Nat
  timecode : Nat
  is_damaged : Bool
  is_generated : Bool
  tracks : List Mtrk
deriving DecidableEq, Repr

/-- The backtrack loop of `extract_mtrk` (carver.c lines 184-197):
`for (ptr = start; ptr > 8; ptr--)` looking for "MThd" at `&buffer[off+ptr]`.
Structural recursion on the loop counter. -/
def backtrackFrom (buffer : List Nat) (off : Nat) : Nat → Option Nat
  | 0 => none
  | ptr+1 =>
    if ptr + 1 ≤ 8 then none
    else if isMThd buffer (off + (ptr+1)) then some (ptr+1)
    else backtrackFrom buffer off ptr

/-- `extract_mtrk` (carver.c lines 153-243) at buffer position `off`.
Returns `none` exactly on a tag mismatch.  The declared length is read at
`off+4`; the payload starts at `off+8`.  The two accept branches keep the
payload as-is; the two repair branches append the end-of-track marker and
run `size += 4`.  In the backtrack branch the C code copies `ptr` bytes
(`memcpy(newtrack->data, &buffer[8], ptr)`) and puts the marker at
`data[ptr]`, while setting `size = ptr - 8 + 4`; the embedding reproduces
that exactly.  When the declared length is < 4 and no marker is found,
the C code leaves `data`/`extratrunc` uninitialized (the `ptr == 8` test
fails); the `none`-backtrack branch here is only a faithful model of the
defined case `size + 4 ≥ 8`. -/
def extract_mtrk (buffer : List Nat) (off : Nat) : Option Mtrk :=
  if isMTrk buffer off then
    let size := readU32 buffer (off+4)
    if sliceEq buffer (off + size + 4) eot then
      some ⟨size, false, (buffer.drop (off+8)).take size⟩
    else if sliceEq buffer (off + size + 5) (eot.drop 1) then
      some ⟨size, false, (buffer.drop (off+8)).take size⟩
    else
      match backtrackFrom buffer off (size + 4) with
      | some ptr => some ⟨ptr - 8 + 4, true, ((buffer.drop (off+8)).take ptr) ++ eot⟩
      | none => some ⟨size + 4, true, ((buffer.drop (off+8)).take size) ++ eot⟩
  else none

/-- The field parsing of `extract_mthd` (carver.c lines 104-149), run when
the tag check has already succeeded.  The 4-byte length field at `off+4`
is only logged, never used; 14 bytes are always consumed by the caller.
Type 0 with track count ≠ 1 is coerced to type 1 (lines 138-142). -/
def parse_mthd (buffer : List Nat) (off : Nat) : Mthd :=
  let ty := (buffer.getD (off+8) 0 * 256 + buffer.getD (off+9) 0) % 65536
  let nt := (buffer.getD (off+10) 0 * 256 + buffer.getD (off+11) 0) % 65536
  let tc := (buffer.getD (off+12) 0 * 256 + buffer.getD (off+13) 0) % 65536
  { miditype := if ty = 0 ∧ nt ≠ 1 then 1 else ty
    numtracks := nt
    timecode := tc
    is_damaged := false
    is_generated := false
    tracks := [] }

/-- `extract_mthd` (carver.c lines 104-149): NULL on tag mismatch. -/
def extract_mthd (buffer : List Nat) (off : Nat) : Option Mthd :=
  if isMThd buffer off then some (parse_mthd buffer off) else none

/-- The recovery search of `smart_extract` (carver.c lines 272-281):
`for (j=1; j<eof_point && j<max_distance && !MThd at i+j; j++) if MTrk at i+j break;`
The structure being scanned starts at absolute offset `off` (the C code's
`buffer` is `&blob[off]`), the current local offset is `i`.  The bound
`j < eof_point` is encoded by the first argument `fuel = eof_point - j`
(so `fuel > 0 ↔ j < eof_point`); the caller passes `fuel = eof_point - 1`
together with `j = 1`.  Returns the found `j` (or `none`) and the number
of positions at which the loop body ran (the probe count). -/
def searchFrom (buffer : List Nat) (off i maxdist : Nat) : Nat → Nat → Option Nat × Nat
  | 0, _ => (none, 0)
  | fuel+1, j =>
    if j < maxdist ∧ ¬ isMThd buffer (off + i + j) then
      if isMTrk buffer (off + i + j) then (some j, 1)
      else
        let r := searchFrom buffer off i maxdist fuel (j+1)
        (r.1, r.2 + 1)
    else (none, 0)

/-- The caller-side advance for one extracted track (carver.c lines 292-293):
`i += newtrack->size + 0x08; if (newtrack->extratrunc) i -= 0x04;`. -/
def mtrkAdvance (t : Mtrk) : Nat :=
  if t.extratrunc then t.size + 8 - 4 else t.size + 8

theorem searchFrom_fst_isMTrk (buffer : List Nat) (off i maxdist : Nat) :
    ∀ fuel j j', (searchFrom buffer off i maxdist fuel j).1 = some j' →
      isMTrk buffer (off + i + j') = true := by
  intro fuel
  induction fuel with
  | zero => intro j j' h; simp [searchFrom] at h
  | succ m ih =>
    intro j j' h
    rw [searchFrom] at h
    by_cases hc : j < maxdist ∧ ¬ isMThd buffer (off + i + j) = true
    · rw [if_pos hc] at h
      by_cases ht : isMTrk buffer (off + i + j) = true
      · simp [ht] at h
        exact h ▸ ht
      · simp [ht] at h
        exact ih (j+1) j' h
    · rw [if_neg hc] at h
      simp at h

theorem not_isMThd_of_isMTrk (buffer : List Nat) (i : Nat) (h : isMTrk buffer i = true) :
    isMThd buffer i = false := by
  simp only [isMTrk, sliceEq, mTrkTag, beq_iff_eq] at h
  simp only [isMThd, sliceEq, mThdTag]
  simp only [show (List.length [77, 84, 114, 107] : Nat) = 4 from rfl] at h
  simp only [show (List.length [77, 84, 104, 100] : Nat) = 4 from rfl]
  simp [h]

theorem extract_mtrk_eq_some (buffer : List Nat) (off : Nat) (h : isMTrk buffer off = true) :
    ∃ t, extract_mtrk buffer off = some t := by
  unfold extract_mtrk
  rw [if_pos h]
  dsimp only
  split
  · exact ⟨_, rfl⟩
  · split
    · exact ⟨_, rfl⟩
    · split <;> exact ⟨_, rfl⟩

theorem mtrkAdvance_ge (t : Mtrk) : 4 ≤ mtrkAdvance t := by
  unfold mtrkAdvance
  split <;> omega

/-- The `while (in_mthd)` loop of `smart_extract` (carver.c lines 257-308).
`base` is the absolute offset of the structure's first track byte (the C
code's `buffer` parameter is `&blob[base]`), `i` the local offset, `cur`
the `curtrack` counter, `midi` the header being filled.  The C loop keeps
the absolute local offset `i` and finally `return i`; this function
returns the bytes consumed from the given `i` onward, so the C return
value is the `.1` of a call with `i = 0`.  Branches, in source order:
collision with "MThd" (lines 259-264), missing "MTrk" tag → recovery
search (lines 265-287, `is_damaged` set before searching), track found →
extract, advance, append, count (lines 288-306). -/
def smartLoop (buffer : List Nat) (base eofPoint maxdist : Nat) :
    Nat → Nat → Mthd → Nat × Mthd
  | i, cur, midi =>
    if hd : isMThd buffer (base + i) then
      (0, { midi with numtracks := cur, is_damaged := true })
    else if ht : isMTrk buffer (base + i) then
      match extract_mtrk buffer (base + i) with
      | some t =>
        let adv := mtrkAdvance t
        let midi' := { midi with tracks := midi.tracks ++ [t] }
        if hc : cur + 1 ≥ midi.numtracks then (adv, midi')
        else
          let r := smartLoop buffer base eofPoint maxdist (i + adv) (cur + 1) midi'
          (adv + r.1, r.2)
      | none => (0, midi)
    else
      match hs : (searchFrom buffer base i maxdist (eofPoint - 1) 1).1 with
      | some j =>
        let r := smartLoop buffer base eofPoint maxdist (i + j) cur
          { midi with is_damaged := true }
        (j + r.1, r.2)
      | none => (0, { midi with numtracks := cur, is_damaged := true })
termination_by i cur midi =>
  2 * (midi.numtracks - cur) + (if isMTrk buffer (base + i) then 0 else 1)
decreasing_by
  · by_cases hb : isMTrk buffer (base + (i + adv)) <;> simp [hb, ht] <;> omega
  · have htag : isMTrk buffer (base + i + j) = true :=
      searchFrom_fst_isMTrk buffer base i maxdist (eofPoint - 1) 1 j hs
    have htag' : isMTrk buffer (base + (i + j)) = true := by
      rw [← Nat.add_assoc]; exact htag
    simp [ht, htag']

/-- `write_mtrk` (carver.c lines 38-62) for a single track: the tag, the
4 length bytes computed with the divisor 1677216, then `track->size`
bytes of `track->data` (`fwrite(track->data, 1, track->size, fp)`).
The recursion over `next` becomes a `map` in `write_midi`. -/
def write_mtrk (t : Mtrk) : List Nat :=
  mTrkTag ++ writeLen32 t.size ++ t.data.take t.size

/-- `write_midi` (carver.c lines 64-101).  `none` models the refusal path
(`track0 == NULL`: message printed, return 1, no file written).  Otherwise
the bytes written: `"MThd\0\0\0\x06"`, then type, track count and timecode
as big-endian 16-bit values, then every track in list order. -/
def write_midi (m : Mthd) : Option (List Nat) :=
  match m.tracks with
  | [] => none
  | _ =>
    some (mThdTag ++ [0, 0, 0, 6] ++
      [m.miditype / 256 % 256, m.miditype % 256,
       m.numtracks / 256 % 256, m.numtracks % 256,
       m.timecode / 256 % 256, m.timecode % 256] ++
      (m.tracks.map write_mtrk).flatten)

/-- The output-filename classification of `smart_extract`
(carver.c lines 310-315): ORPH if generated, OK if never damaged, BAD else. -/
inductive Classification
  | orph
  | ok
  | bad
deriving DecidableEq, Repr

def classify (m : Mthd) : Classification :=
  if m.is_generated then .orph
  else if m.is_damaged = false then .ok
  else .bad

/-- `smart_extract` (carver.c lines 247-319): run the track loop from
local offset 0 with `curtrack = 0`, classify, hand the header to
`write_midi`, return the consumed byte count. -/
def smart_extract (buffer : List Nat) (base eofPoint maxdist : Nat) (midi : Mthd) :
    Nat × Mthd × Classification × Option (List Nat) :=
  let r := smartLoop buffer base eofPoint maxdist 0 0 midi
  (r.1, r.2, classify r.2, write_midi r.2)

/-- The orphan pre-scan of `main` (carver.c lines 386-390):
`for (j=i; j<filesize-3 && !MThd at j; j++) if MTrk at j count++`.
Structural on `fuel = (filesize - 3) - j`. -/
def countAux (buffer : List Nat) : Nat → Nat → Nat
  | 0, _ => 0
  | fuel+1, j =>
    if isMThd buffer j then 0
    else (if isMTrk buffer j then 1 else 0) + countAux buffer fuel (j+1)

def countMTrks (buffer : List Nat) (i : Nat) : Nat :=
  countAux buffer (buffer.length - 3 - i) i

/-- The header synthesized for an orphan track run (carver.c lines 377-391):
type 1, timecode 120, damaged and generated, track count seeded by the
pre-scan (`numtracks` is an `unsigned short`, hence the `% 65536`). -/
def orphanMidi (buffer : List Nat) (i : Nat) : Mthd :=
  { miditype := 1
    numtracks := countMTrks buffer i % 65536
    timecode := 120
    is_damaged := true
    is_generated := true
    tracks := [] }

theorem smartLoop_track_ge (buffer : List Nat) (base eofPoint maxdist i cur : Nat)
    (midi : Mthd) (h : isMTrk buffer (base + i) = true) :
    4 ≤ (smartLoop buffer base eofPoint maxdist i cur midi).1 := by
  rw [smartLoop]
  rw [dif_neg (by simp [not_isMThd_of_isMTrk buffer (base + i) h])]
  rw [dif_pos h]
  obtain ⟨t, ht⟩ := extract_mtrk_eq_some buffer (base + i) h
  rw [ht]
  have hadv := mtrkAdvance_ge t
  dsimp only
  split <;> simp <;> omega

/-- The per-iteration advance of the `main` scan loop
(carver.c lines 369-404): the consumed length returned by `smart_extract`
at an orphan "MTrk", 14 plus the consumed length at an "MThd", and 1 when
neither tag is present.  `eof_point` is `filesize - i` as passed at lines
392 and 400, `max_distance` is 32768. -/
def scanStep (buffer : List Nat) (i : Nat) : Nat :=
  if isMTrk buffer i then
    (smartLoop buffer i (buffer.length - i) 32768 0 0 (orphanMidi buffer i)).1
  else if isMThd buffer i then
    14 + (smartLoop buffer (i + 14) (buffer.length - (i + 14)) 32768 0 0
      (parse_mthd buffer i)).1
  else 1

theorem scanStep_pos (buffer : List Nat) (i : Nat) : 1 ≤ scanStep buffer i := by
  unfold scanStep
  split
  next h =>
    have := smartLoop_track_ge buffer i (buffer.length - i) 32768 0 0
      (orphanMidi buffer i) (by simpa using h)
    omega
  split
  · omega
  · omega

/-- The structure (start offset, final header, written file or `none`)
reconstructed at scan position `i`, when a tag is present there. -/
def scanHead (buffer : List Nat) (i : Nat) : List (Nat × Mthd × Option (List Nat)) :=
  if isMTrk buffer i then
    let r := smartLoop buffer i (buffer.length - i) 32768 0 0 (orphanMidi buffer i)
    [(i, r.2, write_midi r.2)]
  else if isMThd buffer i then
    let r := smartLoop buffer (i + 14) (buffer.length - (i + 14)) 32768 0 0
      (parse_mthd buffer i)
    [(i, r.2, write_midi r.2)]
  else []

/-- The top-level scan loop of `main` (carver.c lines 369-404):
`while (i < filesize)`, orphan-"MTrk" branch, "MThd" branch, else `++i`.
Collects the reconstructed structures in discovery order. -/
def scan (buffer : List Nat) (i : Nat) : List (Nat × Mthd × Option (List Nat)) :=
  if h : i < buffer.length then
    scanHead buffer i ++ scan buffer (i + scanStep buffer i)
  else []
termination_by buffer.length - i
decreasing_by
  have h1 := scanStep_pos buffer i
  omega

theorem not_isMTrk_of_isMThd (buffer : List Nat) (i : Nat) (h : isMThd buffer i = true) :
    isMTrk buffer i = false := by
  simp only [isMThd, sliceEq, mThdTag, beq_iff_eq] at h
  simp only [isMTrk, sliceEq, mTrkTag]
  simp only [show (List.length [77, 84, 104, 100] : Nat) = 4 from rfl] at h
  simp only [show (List.length [77, 84, 114, 107] : Nat) = 4 from rfl]
  simp [h]

theorem backtrackFrom_some (buffer : List Nat) (off : Nat) :
    ∀ s ptr, backtrackFrom buffer off s = some ptr →
      isMThd buffer (off + ptr) = true ∧ 8 < ptr ∧ ptr ≤ s := by
  intro s
  induction s with
  | zero => intro ptr h; simp [backtrackFrom] at h
  | succ n ih =>
    intro ptr h
    rw [backtrackFrom] at h
    by_cases h8 : n + 1 ≤ 8
    · rw [if_pos h8] at h
      exact absurd h (by simp)
    · rw [if_neg h8] at h
      by_cases hm : isMThd buffer (off + (n + 1)) = true
      · rw [if_pos hm] at h
        injection h with h'
        subst h'
        exact ⟨hm, by omega, le_refl _⟩
      · rw [if_neg hm] at h
        obtain ⟨a, b, c⟩ := ih ptr h
        exact ⟨a, b, by omega⟩

/-- Slicing identity: the last `k` bytes of the `n`-byte window starting at
`s` are the `k`-byte window starting at `s + (n - k)`. -/
theorem payload_tail_eq (buffer : List Nat) (s k n : Nat) (hk : k ≤ n) :
    ((buffer.drop s).take n).drop (n - k) = (buffer.drop (s + (n - k))).take k := by
  rw [List.drop_take, List.drop_drop]
  congr 1
  omega

/-- The `memcmp` of carver.c line 180 looks at exactly the last 4 bytes of
the declared `L`-byte payload. -/
theorem sliceEq_iff_tail4 (buffer : List Nat) (off L : Nat) (h4 : 4 ≤ L) :
    sliceEq buffer (off + L + 4) eot = true ↔
      ((buffer.drop (off + 8)).take L).drop (L - 4) = eot := by
  rw [payload_tail_eq buffer (off + 8) 4 L h4]
  have : off + 8 + (L - 4) = off + L + 4 := by omega
  rw [this]
  simp [sliceEq, eot]

/-- The `memcmp` of carver.c line 181 looks at exactly the last 3 bytes of
the declared `L`-byte payload. -/
theorem sliceEq_iff_tail3 (buffer : List Nat) (off L : Nat) (h4 : 4 ≤ L) :
    sliceEq buffer (off + L + 5) (eot.drop 1) = true ↔
      ((buffer.drop (off + 8)).take L).drop (L - 3) = eot.drop 1 := by
  rw [payload_tail_eq buffer (off + 8) 3 L (by omega)]
  have : off + 8 + (L - 3) = off + L + 5 := by omega
  rw [this]
  simp [sliceEq, eot]

/-- The buffer positions read by the end-of-track probe of carver.c
line 180 (`memcmp(&buffer[newtrack->size+0x04], end_of_track, 4)`). -/
def trailerProbe (buffer : List Nat) (off : Nat) : List Nat :=
  let size := readU32 buffer (off + 4)
  [off + size + 4, off + size + 5, off + size + 6, off + size + 7]

/-- An 8-byte blob: a bare "MTrk" tag plus a length field declaring
100 payload bytes that do not exist. -/
def oobBuf : List Nat := [77, 84, 114, 107, 0, 0, 0, 100]

/-- A 28-byte track chunk with declared length 20 whose payload was
overwritten by an "MThd" tag at absolute offset 12, with no end-of-track
marker anywhere. -/
def overwrittenBuf : List Nat :=
  [77, 84, 114, 107, 0, 0, 0, 20, 1, 2, 3, 4, 77, 84, 104, 100,
   5, 6, 7, 8, 9, 10, 11, 12, 13, 14, 15, 16]

/-- A 34-byte blob: a header declaring 2 tracks, one valid 12-byte track,
then 8 tagless garbage bytes to the end of the blob. -/
def desyncBuf : List Nat :=
  [77, 84, 104, 100, 0, 0, 0, 6, 0, 1, 0, 2, 0, 96,
   77, 84, 114, 107, 0, 0, 0, 4, 0, 255, 47, 0,
   1, 2, 3, 4, 5, 6, 7, 8]

/-- A 26-byte blob: a header declaring 0 tracks followed by one valid
12-byte track. -/
def zeroTracksBuf : List Nat :=
  [77, 84, 104, 100, 0, 0, 0, 6, 0, 1, 0, 0, 0, 96,
   77, 84, 114, 107, 0, 0, 0, 4, 0, 255, 47, 0]

/-- A 40-byte blob: a header immediately followed by another header (so the
first structure ends with zero tracks), then one valid 12-byte track. -/
def twoFilesBuf : List Nat :=
  [77, 84, 104, 100, 0, 0, 0, 6, 0, 1, 0, 1, 0, 96,
   77, 84, 104, 100, 0, 0, 0, 6, 0, 1, 0, 1, 0, 96,
   77, 84, 114, 107, 0, 0, 0, 4, 0, 255, 47, 0]

/-- General search-count bound: the recovery loop body runs at most
`min fuel (max_distance - j)` times starting from counter value `j`. -/
theorem searchFrom_count_le (buffer : List Nat) (off i maxdist : Nat) :
    ∀ fuel j, (searchFrom buffer off i maxdist fuel j).2 ≤ min fuel (maxdist - j) := by
  intro fuel
  induction fuel with
  | zero => intro j; simp [searchFrom]
  | succ m ih =>
    intro j
    rw [searchFrom]
    by_cases hc : j < maxdist ∧ ¬ isMThd buffer (off + i + j) = true
    · rw [if_pos hc]
      by_cases ht : isMTrk buffer (off + i + j) = true
      · rw [if_pos ht]
        have := hc.1
        simp
        omega
      · rw [if_neg ht]
        have h1 := ih (j + 1)
        have := hc.1
        simp only []
        omega
    · rw [if_neg hc]
      simp

/-- C1: the claim states that the 4-byte length field written for every
track is the mathematically correct big-endian encoding of the stored
length, with most-significant byte `length / 16777216`.  The code's
`write_mtrk` divides by 1677216 (carver.c lines 45-46), so for a stored
length of 1677216 bytes it writes 01 00 97 A0 where the correct encoding
is 00 19 97 A0: the claim describes the intended behaviour, the code's
divisor is a transcription slip (the read side, lines 121 and 171, uses
the correct 16777216). -/
theorem C1_write_mtrk_length_bug :
    writeLen32 1677216 = [1, 0, 151, 160] ∧
    u32beSpec 1677216 = [0, 25, 151, 160] ∧
    writeLen32 1677216 ≠ u32beSpec 1677216 ∧
    (∀ n, n < 1677216 → writeLen32 n = u32beSpec n) := by
  refine ⟨by decide, by decide, by decide, ?_⟩
  intro n hn
  unfold writeLen32 u32beSpec
  have h1 : n / 1677216 = 0 := Nat.div_eq_of_lt hn
  have h2 : n % 1677216 = n := Nat.mod_eq_of_lt hn
  have h3 : n / 16777216 = 0 := Nat.div_eq_of_lt (by omega)
  have h4 : n % 16777216 = n := Nat.mod_eq_of_lt (by omega)
  rw [h1, h2, h3, h4]

/-- C2: the claim states that every multi-byte read and every search stays
inside the buffer extent, with out-of-range accesses turned into a defined
error.  On the 8-byte blob `oobBuf`, whose length field declares 100
payload bytes, `extract_mtrk` probes the end-of-track marker at positions
104..107 (carver.c line 180), scans backward over positions 9..104
(line 184), and copies 100 payload bytes from position 8 (line 202) — all
far beyond the 8-byte extent — and still returns a repaired track rather
than any error.  In C these are out-of-bounds reads (undefined behaviour);
the embedding models them as reads of nothing/zero. -/
theorem C2_unbounded_read :
    readU32 oobBuf 4 = 100 ∧
    (∀ p ∈ trailerProbe oobBuf 0, oobBuf.length ≤ p) ∧
    oobBuf.length < 8 + readU32 oobBuf 4 ∧
    extract_mtrk oobBuf 0 = some ⟨104, true, [0, 255, 47, 0]⟩ := by
  decide

/-- C3: the claim states that after the backtrack search finds a header
tag at position P (= 12 here, with offset = 0), the track's payload is
exactly the bytes from offset+8 up to P followed by the 4-byte marker,
with stored length (P − offset − 8) + 4.  The stored length matches
(`size = 8`), but the code copies P − offset bytes instead of
P − offset − 8 and writes the marker at `data[P − offset]`
(carver.c lines 190-192), beyond the stored length, so the payload that
is stored (and later serialized, `data.take size`) is NOT the claimed
bytes-then-marker: it runs on through the embedded "MThd" tag and the
synthetic marker is never part of the first `size` bytes. -/
theorem C3_backtrack_payload_bug :
    extract_mtrk overwrittenBuf 0 =
      some ⟨8, true, [1, 2, 3, 4, 77, 84, 104, 100, 5, 6, 7, 8, 0, 255, 47, 0]⟩ ∧
    (8 : Nat) = (12 - 0 - 8) + 4 ∧
    [1, 2, 3, 4, 77, 84, 104, 100, 5, 6, 7, 8, 0, 255, 47, 0] ≠
      (overwrittenBuf.drop 8).take (12 - 0 - 8) ++ eot ∧
    ([1, 2, 3, 4, 77, 84, 104, 100, 5, 6, 7, 8, 0, 255, 47, 0].take 8 =
      [1, 2, 3, 4, 77, 84, 104, 100]) ∧
    write_mtrk ⟨8, true, [1, 2, 3, 4, 77, 84, 104, 100, 5, 6, 7, 8, 0, 255, 47, 0]⟩ =
      mTrkTag ++ writeLen32 8 ++ [1, 2, 3, 4, 77, 84, 104, 100] := by
  decide

/-- C4 (counterexample): the claim bounds the recovery search by
min(remaining-bytes-to-blob-end measured from the CURRENT offset, 32768).
In `desyncBuf` the structure after the header starts at base 14 with
`eof_point = 34 - 14 = 20`; after consuming the first track the loop is at
local offset 12, where only 20 - 12 = 8 bytes remain to the blob end, yet
the search (carver.c line 272 tests `j < eof_point`, not `j < eof_point - i`)
runs its body 19 times — more than min(8, 32768) = 8 — probing positions
past the end of the blob. -/
theorem C4_counterexample :
    smartLoop desyncBuf 14 20 32768 0 0 (parse_mthd desyncBuf 0) =
      (12, ⟨1, 1, 96, true, false, [⟨4, false, [0, 255, 47, 0]⟩]⟩) ∧
    (searchFrom desyncBuf 14 12 32768 (20 - 1) 1).2 = 19 ∧
    ¬ ((searchFrom desyncBuf 14 12 32768 (20 - 1) 1).2 ≤ min (20 - 12) 32768) := by
  refine ⟨?_, by decide, by decide⟩
  simp [smartLoop, parse_mthd, extract_mtrk, searchFrom, isMThd, isMTrk, sliceEq,
    mThdTag, mTrkTag, eot, readU32, mtrkAdvance, desyncBuf]

/-- C4 (amended): the recovery search examines at most
min(eof_point, max_search_distance) − 1 positions, where `eof_point` is
the byte count from the point where this structure's track parsing began
(just after its header) to the blob end — NOT from the current offset;
it stops immediately, consuming nothing, when a header tag is
encountered; and when it finds neither tag the loop sets the header's
track count to the number parsed so far, marks it damaged, and ends. -/
theorem C4_search_bound_amended (buffer : List Nat) (base i eofPoint maxdist cur : Nat)
    (midi : Mthd) :
    ((searchFrom buffer base i maxdist (eofPoint - 1) 1).2 ≤ min eofPoint maxdist - 1) ∧
    (∀ i' fuel j, isMThd buffer (base + i' + j) = true →
      searchFrom buffer base i' maxdist fuel j = (none, 0)) ∧
    (isMThd buffer (base + i) = false → isMTrk buffer (base + i) = false →
      (searchFrom buffer base i maxdist (eofPoint - 1) 1).1 = none →
      smartLoop buffer base eofPoint maxdist i cur midi =
        (0, { midi with numtracks := cur, is_damaged := true })) := by
  refine ⟨?_, ?_, ?_⟩
  · have h := searchFrom_count_le buffer base i maxdist (eofPoint - 1) 1
    omega
  · intro i' fuel j hm
    match fuel with
    | 0 => rw [searchFrom]
    | m+1 =>
      rw [searchFrom]
      rw [if_neg (by simp [hm])]
  · intro hd ht hs
    rw [smartLoop]
    rw [dif_neg (by simp [hd])]
    rw [dif_neg (by simp [ht])]
    split
    next j' h' => rw [hs] at h'; exact Option.noConfusion h'
    next h' => rfl

/-- C5: when a track chunk's claimed data region holds an embedded header
tag (found by the backtrack at `ptr`, i.e. absolute position
`base + i + ptr`) and no end-of-track marker, the repaired track's
advance amount `mtrkAdvance` is `size + 8 - 4` — the synthetic 4 trailer
bytes excluded — which lands exactly on the embedded tag: the track loop
stops there (whether by count-complete or by collision with the tag), so
the Top-Level Scanner's next position is the tag's absolute offset and
`scan` emits an independent structure starting exactly there. -/
theorem C5_embedded_header_rediscovery (buffer : List Nat)
    (base eofPoint maxdist i cur L ptr : Nat) (midi : Mthd)
    (htag : isMTrk buffer (base + i) = true)
    (hL : readU32 buffer (base + i + 4) = L)
    (h1 : sliceEq buffer (base + i + L + 4) eot = false)
    (h2 : sliceEq buffer (base + i + L + 5) (eot.drop 1) = false)
    (hbt : backtrackFrom buffer (base + i) (L + 4) = some ptr) :
    ∃ t, extract_mtrk buffer (base + i) = some t ∧ t.extratrunc = true ∧
      mtrkAdvance t = ptr ∧
      isMThd buffer (base + i + ptr) = true ∧
      (smartLoop buffer base eofPoint maxdist i cur midi).1 = ptr ∧
      (base + i + ptr < buffer.length →
        ∃ m f rest, scan buffer (base + i + ptr) = (base + i + ptr, m, f) :: rest) := by
  obtain ⟨hmthd, hgt8, hle⟩ := backtrackFrom_some buffer (base + i) (L + 4) ptr hbt
  have hext : extract_mtrk buffer (base + i) =
      some ⟨ptr - 8 + 4, true, ((buffer.drop (base + i + 8)).take ptr) ++ eot⟩ := by
    unfold extract_mtrk
    rw [if_pos htag]
    dsimp only
    rw [hL]
    have h2' : sliceEq buffer (base + i + L + 5) eot.tail = false := by
      simpa [List.drop_one] using h2
    rw [if_neg (by simp [h1]), if_neg (by simp [h2, h2']), hbt]
  have hadv : mtrkAdvance
      ⟨ptr - 8 + 4, true, ((buffer.drop (base + i + 8)).take ptr) ++ eot⟩ = ptr := by
    simp [mtrkAdvance]
    omega
  have hloop : (smartLoop buffer base eofPoint maxdist i cur midi).1 = ptr := by
    rw [smartLoop]
    rw [dif_neg (by simp [not_isMThd_of_isMTrk buffer (base + i) htag])]
    rw [dif_pos htag]
    rw [hext]
    dsimp only
    rw [hadv]
    by_cases hc : cur + 1 ≥ midi.numtracks
    · rw [dif_pos hc]
    · rw [dif_neg hc]
      have hassoc : base + (i + ptr) = base + i + ptr := by omega
      rw [smartLoop]
      rw [dif_pos (by rw [hassoc]; exact hmthd)]
      simp
  refine ⟨_, hext, rfl, hadv, hmthd, hloop, ?_⟩
  intro hP
  rw [scan]
  rw [dif_pos hP]
  unfold scanHead
  rw [if_neg (by simp [not_isMTrk_of_isMThd buffer (base + i + ptr) hmthd])]
  rw [if_pos hmthd]
  exact ⟨_, _, _, rfl⟩

/-- C5 (witness): `C5_embedded_header_rediscovery` applied to
`overwrittenBuf` (track at 0, declared length 20, embedded header at 12,
no marker), with a header declaring 5 tracks. -/
theorem C5_embedded_header_rediscovery_witness :
    ∃ t, extract_mtrk overwrittenBuf (0 + 0) = some t ∧ t.extratrunc = true ∧
      mtrkAdvance t = 12 ∧
      isMThd overwrittenBuf (0 + 0 + 12) = true ∧
      (smartLoop overwrittenBuf 0 28 32768 0 0 ⟨1, 5, 120, false, false, []⟩).1 = 12 ∧
      (0 + 0 + 12 < overwrittenBuf.length →
        ∃ m f rest, scan overwrittenBuf (0 + 0 + 12) = (0 + 0 + 12, m, f) :: rest) :=
  C5_embedded_header_rediscovery overwrittenBuf 0 28 32768 0 0 20 12
    ⟨1, 5, 120, false, false, []⟩ (by decide) (by decide) (by decide) (by decide) (by decide)

/-- C6: for a track chunk with declared length L (≥ 4, so that the
probed trailer window lies inside the payload and the C code's behaviour
is defined), the parser reports no repair iff the payload's last 4 bytes
are 00 FF 2F 00 or its last 3 bytes are FF 2F 00; in either accepting
case the stored payload is exactly the L declared bytes, unaltered, and
the caller's advance is L + 8. -/
theorem C6_trailer_accept (buffer : List Nat) (off L : Nat)
    (htag : isMTrk buffer off = true)
    (hL : readU32 buffer (off + 4) = L)
    (h4 : 4 ≤ L)
    (hlen : off + 8 + L ≤ buffer.length) :
    ∃ t, extract_mtrk buffer off = some t ∧
      (t.extratrunc = false ↔
        (((buffer.drop (off + 8)).take L).drop (L - 4) = eot ∨
         ((buffer.drop (off + 8)).take L).drop (L - 3) = eot.drop 1)) ∧
      (t.extratrunc = false →
        t.size = L ∧ t.data = (buffer.drop (off + 8)).take L ∧ mtrkAdvance t = L + 8) := by
  unfold extract_mtrk
  rw [if_pos htag]
  dsimp only
  rw [hL]
  by_cases h1 : sliceEq buffer (off + L + 4) eot = true
  · rw [if_pos h1]
    refine ⟨_, rfl, ?_, ?_⟩
    · exact iff_of_true rfl (Or.inl ((sliceEq_iff_tail4 buffer off L h4).mp h1))
    · intro _
      exact ⟨rfl, rfl, by simp [mtrkAdvance]⟩
  · rw [if_neg h1]
    by_cases h2 : sliceEq buffer (off + L + 5) (eot.drop 1) = true
    · rw [if_pos h2]
      refine ⟨_, rfl, ?_, ?_⟩
      · exact iff_of_true rfl (Or.inr ((sliceEq_iff_tail3 buffer off L h4).mp h2))
      · intro _
        exact ⟨rfl, rfl, by simp [mtrkAdvance]⟩
    · rw [if_neg h2]
      have hnot : ¬ (((buffer.drop (off + 8)).take L).drop (L - 4) = eot ∨
          ((buffer.drop (off + 8)).take L).drop (L - 3) = eot.drop 1) := by
        rintro (ha | hb)
        · exact h1 ((sliceEq_iff_tail4 buffer off L h4).mpr ha)
        · exact h2 ((sliceEq_iff_tail3 buffer off L h4).mpr hb)
      split
      · exact ⟨_, rfl, iff_of_false (by simp) hnot, by simp⟩
      · exact ⟨_, rfl, iff_of_false (by simp) hnot, by simp⟩

/-- C6 (witness): `C6_trailer_accept` applied to the valid track chunk at
offset 28 of `twoFilesBuf` (declared length 4, payload = full marker). -/
theorem C6_trailer_accept_witness :
    ∃ t, extract_mtrk twoFilesBuf 28 = some t ∧
      (t.extratrunc = false ↔
        (((twoFilesBuf.drop (28 + 8)).take 4).drop (4 - 4) = eot ∨
         ((twoFilesBuf.drop (28 + 8)).take 4).drop (4 - 3) = eot.drop 1)) ∧
      (t.extratrunc = false →
        t.size = 4 ∧ t.data = (twoFilesBuf.drop (28 + 8)).take 4 ∧ mtrkAdvance t = 4 + 8) :=
  C6_trailer_accept twoFilesBuf 28 4 (by decide) (by decide) (by decide) (by decide)

/-- C7: the claim states that every well-formed MIDI sequence is
reconstructed byte-identically (and that re-running the scanner is a
fixed point).  The serializer re-emits each track's length field through
`writeLen32` (divisor 1677216, carver.c line 45), so a well-formed file
whose track declares length 1677216 — length bytes 00 19 97 A0, which the
parser reads back correctly as 1677216 — is re-written with length bytes
01 00 97 A0: the output track chunk differs from the input chunk no
matter what the payload is.  The claim matches the spec's intended
(correct) encoding; the code's divisor is the slip. -/
theorem C7_roundtrip_bug :
    readU32 (u32beSpec 1677216) 0 = 1677216 ∧
    ∀ p : List Nat,
      write_mtrk ⟨1677216, false, p⟩ ≠ mTrkTag ++ u32beSpec 1677216 ++ p.take 1677216 := by
  constructor
  · decide
  · intro p h
    unfold write_mtrk at h
    dsimp only at h
    rw [List.append_assoc, List.append_assoc] at h
    have h1 := List.append_cancel_left h
    have h2 := List.append_cancel_right h1
    exact absurd h2 (by decide)

/-- C7 (witness): `C7_roundtrip_bug` at the empty payload. -/
theorem C7_roundtrip_bug_witness :
    readU32 (u32beSpec 1677216) 0 = 1677216 ∧
    write_mtrk ⟨1677216, false, []⟩ ≠ mTrkTag ++ u32beSpec 1677216 ++ ([] : List Nat).take 1677216 :=
  ⟨C7_roundtrip_bug.1, C7_roundtrip_bug.2 []⟩

/-- C8 (counterexample): a header declaring 0 tracks followed by one
valid track.  The loop appends the track, then `curtrack (=1) >= numtracks (=0)`
ends the loop without ever updating `numtracks` (carver.c lines 302-306),
so the serialized header carries track count 0 (output bytes 10-11 are
00 00) while one track chunk follows — the written count is the
originally declared value, not the actual track-sequence length. -/
theorem C8_counterexample :
    (smartLoop zeroTracksBuf 14 12 32768 0 0 (parse_mthd zeroTracksBuf 0)).2.numtracks = 0 ∧
    (smartLoop zeroTracksBuf 14 12 32768 0 0 (parse_mthd zeroTracksBuf 0)).2.tracks.length = 1 ∧
    write_midi (smartLoop zeroTracksBuf 14 12 32768 0 0 (parse_mthd zeroTracksBuf 0)).2 =
      some [77, 84, 104, 100, 0, 0, 0, 6, 0, 1, 0, 0, 0, 96,
            77, 84, 114, 107, 0, 0, 0, 4, 0, 255, 47, 0] := by
  have h : smartLoop zeroTracksBuf 14 12 32768 0 0 (parse_mthd zeroTracksBuf 0) =
      (12, ⟨1, 0, 96, false, false, [⟨4, false, [0, 255, 47, 0]⟩]⟩) := by
    simp [smartLoop, parse_mthd, extract_mtrk, isMThd, isMTrk, sliceEq, mThdTag, mTrkTag,
      eot, readU32, mtrkAdvance, zeroTracksBuf]
  rw [h]
  refine ⟨rfl, rfl, ?_⟩
  decide

/-- C8 (amended): in every termination path of the track loop — complete,
collision, and truncated-by-loss-of-sync — the header's final track count
equals the length of its final track sequence, PROVIDED the track count
still to reach is positive (`cur < numtracks`, so in particular the
declared count is nonzero when starting from `cur = 0`); a header
declaring 0 tracks that is immediately followed by a track chunk violates
the original claim (see the counterexample). -/
theorem C8_track_count_amended (buffer : List Nat) (base eofPoint maxdist : Nat) :
    ∀ i cur midi, midi.tracks.length = cur → cur < midi.numtracks →
      ((smartLoop buffer base eofPoint maxdist i cur midi).2).numtracks =
        ((smartLoop buffer base eofPoint maxdist i cur midi).2).tracks.length := by
  intro i cur midi
  induction i, cur, midi using smartLoop.induct buffer base eofPoint maxdist with
  | case1 i cur midi hd =>
    intro h1 _
    rw [smartLoop, dif_pos hd]
    simp [h1]
  | case2 i cur midi hd ht t hext hge =>
    intro h1 h2
    rw [smartLoop, dif_neg hd, dif_pos ht, hext]
    dsimp only
    rw [dif_pos hge]
    simp [h1]
    omega
  | case3 i cur midi hd ht t hext adv midi' hlt ih =>
    intro h1 h2
    rw [smartLoop, dif_neg hd, dif_pos ht, hext]
    dsimp only
    rw [dif_neg hlt]
    dsimp only
    exact ih (by simp [h1]) (by simp; omega)
  | case4 i cur midi hd ht hnone =>
    intro _ _
    obtain ⟨t, h⟩ := extract_mtrk_eq_some buffer (base + i) ht
    rw [h] at hnone
    exact absurd hnone (by simp)
  | case5 i cur midi hd ht j hs ih =>
    intro h1 h2
    rw [smartLoop, dif_neg hd, dif_neg ht]
    split
    next j' h' =>
      rw [hs] at h'
      injection h' with h''
      subst h''
      dsimp only
      exact ih (by simp [h1]) (by simp; omega)
    next h' => rw [hs] at h'; exact Option.noConfusion h'
  | case6 i cur midi hd ht hs =>
    intro h1 _
    rw [smartLoop, dif_neg hd, dif_neg ht]
    split
    next j' h' => rw [hs] at h'; exact Option.noConfusion h'
    next h' => simp [h1]

/-- C8 (witness): `C8_track_count_amended` on the single-track structure
of `twoFilesBuf` (declared count 1 > 0). -/
theorem C8_track_count_amended_witness :
    ((smartLoop twoFilesBuf 28 12 32768 0 0 ⟨1, 1, 96, false, false, []⟩).2).numtracks =
      ((smartLoop twoFilesBuf 28 12 32768 0 0 ⟨1, 1, 96, false, false, []⟩).2).tracks.length :=
  C8_track_count_amended twoFilesBuf 28 12 32768 0 0 ⟨1, 1, 96, false, false, []⟩
    rfl (by decide)

/-- C9: a header whose track sequence is empty is refused by the
serializer — no bytes are produced, the error (`none`) is returned — and
the overall scan continues to the next structure: in `twoFilesBuf` the
first header collides immediately with the second and ends with zero
tracks, its write is refused, and the scan still reconstructs the
following valid file in full. -/
theorem C9_empty_refusal :
    (∀ m : Mthd, m.tracks = [] → write_midi m = none) ∧
    scan twoFilesBuf 0 =
      [(0, ⟨1, 0, 96, true, false, []⟩, none),
       (14, ⟨1, 1, 96, false, false, [⟨4, false, [0, 255, 47, 0]⟩]⟩,
        some [77, 84, 104, 100, 0, 0, 0, 6, 0, 1, 0, 1, 0, 96,
              77, 84, 114, 107, 0, 0, 0, 4, 0, 255, 47, 0])] := by
  constructor
  · intro m h
    unfold write_midi
    rw [h]
  · simp [scan, scanHead, scanStep, smartLoop, parse_mthd, extract_mtrk, orphanMidi,
      isMThd, isMTrk, sliceEq, mThdTag, mTrkTag, eot, readU32, mtrkAdvance,
      write_midi, write_mtrk, writeLen32, twoFilesBuf]

/-- C9 (witness): `C9_empty_refusal` applied to the zero-track header the
scan itself produces. -/
theorem C9_empty_refusal_witness :
    write_midi ⟨1, 0, 96, true, false, []⟩ = none ∧
    scan twoFilesBuf 0 =
      [(0, ⟨1, 0, 96, true, false, []⟩, none),
       (14, ⟨1, 1, 96, false, false, [⟨4, false, [0, 255, 47, 0]⟩]⟩,
        some [77, 84, 104, 100, 0, 0, 0, 6, 0, 1, 0, 1, 0, 96,
              77, 84, 114, 107, 0, 0, 0, 4, 0, 255, 47, 0])] :=
  ⟨C9_empty_refusal.1 ⟨1, 0, 96, true, false, []⟩ rfl, C9_empty_refusal.2⟩

/-- C10: the top-level scan advances by a positive amount on every
iteration — by the track loop's consumed length at an orphan track tag,
by 14 plus the track loop's consumed length at a header tag, and by 1
when no tag is present — and the loop ends exactly when the offset
reaches the buffer end. -/
theorem C10_scan_termination (buffer : List Nat) (i : Nat) :
    1 ≤ scanStep buffer i ∧
    (isMTrk buffer i = true →
      scanStep buffer i =
        (smartLoop buffer i (buffer.length - i) 32768 0 0 (orphanMidi buffer i)).1) ∧
    (isMTrk buffer i = false → isMThd buffer i = true →
      scanStep buffer i =
        14 + (smartLoop buffer (i + 14) (buffer.length - (i + 14)) 32768 0 0
          (parse_mthd buffer i)).1) ∧
    (isMTrk buffer i = false → isMThd buffer i = false → scanStep buffer i = 1) ∧
    (i < buffer.length →
      scan buffer i = scanHead buffer i ++ scan buffer (i + scanStep buffer i)) ∧
    (buffer.length ≤ i → scan buffer i = []) := by
  refine ⟨scanStep_pos buffer i, ?_, ?_, ?_, ?_, ?_⟩
  · intro h
    unfold scanStep
    rw [if_pos h]
  · intro h1 h2
    unfold scanStep
    rw [if_neg (by simp [h1]), if_pos h2]
  · intro h1 h2
    unfold scanStep
    rw [if_neg (by simp [h1]), if_neg (by simp [h2])]
  · intro h
    rw [scan]
    rw [dif_pos h]
  · intro h
    rw [scan]
    rw [dif_neg (by omega)]

/-- C10 (witness): `C10_scan_termination` at positions 0 (header tag),
4 (no tag), 28 (track tag) and 40 (buffer end) of `twoFilesBuf`. -/
theorem C10_scan_termination_witness :
    1 ≤ scanStep twoFilesBuf 0 ∧
    scanStep twoFilesBuf 28 =
      (smartLoop twoFilesBuf 28 (twoFilesBuf.length - 28) 32768 0 0
        (orphanMidi twoFilesBuf 28)).1 ∧
    scanStep twoFilesBuf 0 =
      14 + (smartLoop twoFilesBuf (0 + 14) (twoFilesBuf.length - (0 + 14)) 32768 0 0
        (parse_mthd twoFilesBuf 0)).1 ∧
    scanStep twoFilesBuf 4 = 1 ∧
    scan twoFilesBuf 0 = scanHead twoFilesBuf 0 ++ scan twoFilesBuf (0 + scanStep twoFilesBuf 0) ∧
    scan twoFilesBuf 40 = [] :=
  ⟨(C10_scan_termination twoFilesBuf 0).1,
   (C10_scan_termination twoFilesBuf 28).2.1 (by decide),
   (C10_scan_termination twoFilesBuf 0).2.2.1 (by decide) (by decide),
   (C10_scan_termination twoFilesBuf 4).2.2.2.1 (by decide) (by decide),
   (C10_scan_termination twoFilesBuf 0).2.2.2.2.1 (by decide),
   (C10_scan_termination twoFilesBuf 40).2.2.2.2.2 (by decide)⟩

/-- C4 (amended, witness): `C4_search_bound_amended` on `overwrittenBuf`
with the structure based at 0: the probe-count bound at local offset 8,
the immediate stop on the header tag at 12 (reached with `j = 1` from
local offset 11), and the truncation exit of the track loop at local
offset 8 (the search hits the header tag at 12 before any track tag). -/
theorem C4_search_bound_amended_witness :
    ((searchFrom overwrittenBuf 0 8 32768 (28 - 1) 1).2 ≤ min 28 32768 - 1) ∧
    searchFrom overwrittenBuf 0 11 32768 5 1 = (none, 0) ∧
    smartLoop overwrittenBuf 0 28 32768 8 0 ⟨1, 5, 120, false, false, []⟩ =
      (0, ⟨1, 0, 120, true, false, []⟩) := by
  obtain ⟨a, b, c⟩ :=
    C4_search_bound_amended overwrittenBuf 0 8 28 32768 0 ⟨1, 5, 120, false, false, []⟩
  exact ⟨a, b 11 5 1 (by decide), c (by decide) (by decide) (by decide)⟩

/-- C1 (witness): `C1_write_mtrk_length_bug` with the below-threshold
instance discharged at 1677215. -/
theorem C1_write_mtrk_length_bug_witness :
    writeLen32 1677216 = [1, 0, 151, 160] ∧
    u32beSpec 1677216 = [0, 25, 151, 160] ∧
    writeLen32 1677216 ≠ u32beSpec 1677216 ∧
    writeLen32 1677215 = u32beSpec 1677215 :=
  ⟨C1_write_mtrk_length_bug.1, C1_write_mtrk_length_bug.2.1,
   C1_write_mtrk_length_bug.2.2.1, C1_write_mtrk_length_bug.2.2.2 1677215 (by decide)⟩

/-- C2 (witness): `C2_unbounded_read` with the probe position 104
(≥ the 8-byte extent) discharged concretely. -/
theorem C2_unbounded_read_witness :
    oobBuf.length ≤ 104 ∧ extract_mtrk oobBuf 0 = some ⟨104, true, [0, 255, 47, 0]⟩ :=
  ⟨C2_unbounded_read.2.1 104 (by decide), C2_unbounded_read.2.2.2⟩

end MidiCarver
